import Mathlib

/-!
Shallow embedding of the `agent-loop` package (TypeScript) for verification.

The embedding follows the source files:
* `src/types.ts` — `Message`, `ToolCall`, `ToolResult`, `Tool`;
* `src/memory/utils/tokenCounter.ts` — `TokenCounter`;
* `src/memory/...` — `SlidingWindowStrategy.apply`;
* `src/memory/memoryManager.ts` — `MemoryManager` (local message store);
* `src/toolManager.ts` — `ToolManager.executeTool` / `executeTools`
  together with the `p-retry` library it uses;
* `src/agentLoop.ts` — `AgentLoop.run` (the memory-backed variant).

Modelling conventions:
* JSON values (tool parameters, tool results) are abstracted as their
  serialized text, so `JSON.stringify(x).length` becomes `String.length`
  of the stored text, and a JavaScript `null` result is `Option.none`
  (whose serialization `"null"` has length 4).
* Asynchronous effects are modelled deterministically: a tool's
  behaviour is a function from the 0-based attempt index to a success
  value or a failure message, and the model's behaviour is a function
  from the prompt view to the streamed text and assembled tool calls.
* Thrown JavaScript errors are modelled with `Except`/`Option` error
  values; the unbounded `while (true)` loop is modelled with explicit
  fuel, so that termination claims become statements about sufficient
  fuel.
-/

/-- Message roles, from `src/types.ts` (`'user' | 'system' | 'assistant'`). -/
inductive Role where
  | user
  | system
  | assistant
deriving DecidableEq, Repr

/-- A tool call extracted from the model response (`src/types.ts`).
`params` holds the JSON serialization of the call's parameter record. -/
structure ToolCall where
  id : Option String := none
  name : String
  params : String
deriving DecidableEq, Repr

/-- Result of a tool execution (`src/types.ts`). `result` is the JSON
serialization of the returned value (`none` encodes JavaScript `null`);
`error` holds the error message when execution failed. -/
structure ToolResult where
  toolCall : ToolCall
  result : Option String
  error : Option String := none
deriving DecidableEq, Repr

/-- A conversation message (`src/types.ts`). The optional `toolCalls` /
`toolResults` fields are modelled as lists, absent encoded as `[]`
(the token counter treats `undefined` and `[]` identically). -/
structure Message where
  role : Role
  content : String
  toolCalls : List ToolCall := []
  toolResults : List ToolResult := []
deriving DecidableEq, Repr

/-- A registered tool (`src/types.ts`). `execute` gives, for the JSON
parameter text and the 0-based attempt index, either a failure message
(a thrown error) or the serialized result value. -/
structure Tool where
  name : String
  execute : String → Nat → Except String String

namespace TokenCounter

/-- `Math.ceil (n / k)` on natural numbers. -/
def ceilDiv (n k : Nat) : Nat := (n + k - 1) / k

/-- `AVG_CHARS_PER_TOKEN` from `tokenCounter.ts`. -/
def AVG_CHARS_PER_TOKEN : Nat := 4

/-- `TokenCounter.estimateMessageTokens` from `tokenCounter.ts`:
4 base tokens, plus `ceil(content.length / 4)`, plus — when tool calls
are present — 3 per call and `ceil((name.length + params.length) / 4)`
per call, plus — when tool results are present — 3 per result and
`ceil(result.length / 4)` per result. -/
def estimateMessageTokens (m : Message) : Nat :=
  let contentTokens := 4 + ceilDiv m.content.length AVG_CHARS_PER_TOKEN
  let callTokens :=
    if m.toolCalls.length > 0 then
      m.toolCalls.length * 3 +
        (m.toolCalls.map
          (fun tc => ceilDiv (tc.name.length + tc.params.length) AVG_CHARS_PER_TOKEN)).sum
    else 0
  let resultTokens :=
    if m.toolResults.length > 0 then
      m.toolResults.length * 3 +
        (m.toolResults.map
          (fun tr =>
            ceilDiv (match tr.result with
                     | none => 4
                     | some s => s.length) AVG_CHARS_PER_TOKEN)).sum
    else 0
  contentTokens + callTokens + resultTokens

/-- `TokenCounter.estimateMessagesTokens`: 3 base tokens for the array
plus the per-message estimates. Note the base cost makes the estimate
of the empty list 3, never 0. -/
def estimateMessagesTokens (ms : List Message) : Nat :=
  3 + (ms.map estimateMessageTokens).sum

end TokenCounter

namespace SlidingWindowStrategy

open TokenCounter

/-- The backward walk of `SlidingWindowStrategy.apply`: the input list is
the non-system messages newest first; starting from the tokens already
accumulated, keep taking messages while `currentTokens + messageTokens`
stays at most `maxTokens - 100` (the JavaScript subtraction can go
negative, hence the comparison over `Int`), and stop at the first
message that does not fit. The returned list is newest first. -/
def keepRecent (maxTokens : Nat) : Nat → List Message → List Message
  | _, [] => []
  | currentTokens, m :: rest =>
    let messageTokens := estimateMessageTokens m
    if ((currentTokens + messageTokens : Nat) : Int) > (maxTokens : Int) - 100 then []
    else m :: keepRecent maxTokens (currentTokens + messageTokens) rest

/-- `SlidingWindowStrategy.apply` from the source: empty input gives
empty output; a sequence already within `maxTokens` is returned
unchanged; otherwise all system-role messages are placed in the result
first and the non-system messages are walked newest to oldest, each
kept one `unshift`ed onto the front of the result, so the kept
non-system block (oldest kept first) ends up before the system block. -/
def apply (maxTokens : Nat) (messages : List Message) : List Message :=
  if messages.isEmpty then []
  else if estimateMessagesTokens messages ≤ maxTokens then messages
  else
    let systemMessages := messages.filter (fun m => m.role == Role.system)
    let nonSystemMessages := messages.filter (fun m => m.role != Role.system)
    let kept := keepRecent maxTokens (estimateMessagesTokens systemMessages)
      nonSystemMessages.reverse
    kept.reverse ++ systemMessages

end SlidingWindowStrategy

namespace MemoryManager

/-- `MemoryManager.addUserMessage` restricted to the local store (the
optional mem0 mirror never affects `localMessages` or return values). -/
def addUserMessage (ms : List Message) (content : String) : List Message :=
  ms ++ [{ role := Role.user, content := content }]

/-- `MemoryManager.addAssistantMessage` restricted to the local store. -/
def addAssistantMessage (ms : List Message) (content : String)
    (toolCalls : List ToolCall) : List Message :=
  ms ++ [{ role := Role.assistant, content := content, toolCalls := toolCalls }]

/-- The message `MemoryManager.addToolResults` builds: role `system`,
content `'Tool execution results'`, carrying the tool results. -/
def toolResultsMessage (toolResults : List ToolResult) : Message :=
  { role := Role.system, content := "Tool execution results",
    toolResults := toolResults }

/-- `MemoryManager.addToolResults` restricted to the local store. -/
def addToolResults (ms : List Message) (toolResults : List ToolResult) :
    List Message :=
  ms ++ [toolResultsMessage toolResults]

/-- `MemoryManager.getMessagesForPrompt`: the sliding window applied to
the local store. -/
def getMessagesForPrompt (maxTokens : Nat) (ms : List Message) : List Message :=
  SlidingWindowStrategy.apply maxTokens ms

/-- `MemoryManager.getCurrentTokenCount`. -/
def getCurrentTokenCount (ms : List Message) : Nat :=
  TokenCounter.estimateMessagesTokens ms

end MemoryManager

/-- The `p-retry` library as used in `toolManager.ts`: `f` is the
attempted operation indexed by the 0-based attempt number, `remaining`
is the number of retries still allowed after the current attempt.
Returns the final outcome — the first success, or the last failure after
all `retries + 1` attempts — paired with the number of attempts made. -/
def pRetryRun (f : Nat → Except String String) :
    Nat → Nat → Except String String × Nat
  | attempt, 0 => (f attempt, 1)
  | attempt, remaining + 1 =>
    match f attempt with
    | Except.ok v => (Except.ok v, 1)
    | Except.error _ =>
      let p := pRetryRun f (attempt + 1) remaining
      (p.1, p.2 + 1)

namespace ToolManager

/-- Lookup in the `Map` built by the `ToolManager` constructor: `Map.set`
makes the last registration of a name win, hence the reversed search. -/
def findTool (tools : List Tool) (name : String) : Option Tool :=
  tools.reverse.find? (fun t => t.name == name)

/-- `ToolManager.executeTool` from `toolManager.ts`. The first component
is the returned `ToolResult`; the second is instrumentation counting how
many times the tool's `execute` ran (0 when the tool is unregistered).
An unknown name returns the `Tool not found` error result immediately;
otherwise the tool runs under `p-retry`, and exhausted retries produce
a `ToolExecutionError` wrapping the last failure. The function is total:
failures are encoded in the result, never thrown. -/
def executeTool (tools : List Tool) (call : ToolCall) (retries : Nat) :
    ToolResult × Nat :=
  match findTool tools call.name with
  | none =>
    ({ toolCall := call, result := none,
       error := some ("Tool not found: " ++ call.name) }, 0)
  | some tool =>
    let p := pRetryRun (fun attempt => tool.execute call.params attempt) 0 retries
    match p.1 with
    | Except.ok v => ({ toolCall := call, result := some v, error := none }, p.2)
    | Except.error e =>
      ({ toolCall := call, result := none,
         error := some ("Failed to execute tool " ++ call.name ++ ": " ++ e) },
       p.2)

/-- The sequential branch of `ToolManager.executeTools`: a loop that
awaits each call fully before starting the next, pushing results in
order. -/
def executeToolsSeq (tools : List Tool) (retries : Nat) :
    List ToolCall → List ToolResult
  | [] => []
  | call :: rest =>
    (executeTool tools call retries).1 :: executeToolsSeq tools retries rest

/-- `ToolManager.executeTools`: empty input short-circuits to `[]`; in
parallel mode every call is dispatched and `Promise.all` gathers the
results in input order (the `catch` fallback in the source is
unreachable because `executeTool` never rejects); in sequential mode the
calls run one after another. -/
def executeTools (tools : List Tool) (calls : List ToolCall)
    (parallel : Bool) (retries : Nat) : List ToolResult :=
  if calls.isEmpty then []
  else if parallel then
    calls.map (fun call => (executeTool tools call retries).1)
  else
    executeToolsSeq tools retries calls

end ToolManager

namespace AgentLoop

/-- Substring test on character lists, mirroring JavaScript
`String.prototype.includes`. -/
def charsHave (pat : List Char) : List Char → Bool
  | [] => pat.isEmpty
  | c :: rest => pat.isPrefixOf (c :: rest) || charsHave pat rest

/-- JavaScript `haystack.includes(pat)`. -/
def strIncludes (haystack pat : String) : Bool :=
  charsHave pat.data haystack.data

/-- JavaScript `String.prototype.toLowerCase`, character by character. -/
def toLowerStr (s : String) : String :=
  String.mk (s.data.map Char.toLower)

/-- The indicator phrases of `AgentLoop.isLikelyFinalAnswer`. -/
def finalAnswerIndicators : List String :=
  ["in conclusion", "to summarize", "final answer", "the answer is"]

/-- `AgentLoop.isLikelyFinalAnswer` from `agentLoop.ts`: the lowercased
content contains an indicator phrase, or it is longer than 100
characters and contains no question mark. -/
def isLikelyFinalAnswer (content : String) : Bool :=
  let contentLower := toLowerStr content
  finalAnswerIndicators.any (fun ind => strIncludes contentLower ind) ||
    (content.length > 100 && !(strIncludes contentLower "?"))

/-- `MAX_TURNS_WITHOUT_TOOLS` from `AgentLoop.run`. -/
def MAX_TURNS_WITHOUT_TOOLS : Nat := 3

/-- The `while (true)` body of `AgentLoop.run` (memory-backed variant),
with explicit fuel standing for the number of loop iterations still
allowed (`none` = fuel exhausted, which the unbounded source loop never
observes). `llm` maps the budgeted prompt view to the streamed full
content and the assembled (id-deduplicated) tool calls; prompt
composition is a deterministic function of that view, folded into
`llm`. Each turn appends the assistant message; with tool calls the
counter resets, the calls run in parallel with default retries 3 and
the results are appended; without tool calls the counter increments and
the loop stops at `MAX_TURNS_WITHOUT_TOOLS` turns or on the
final-answer heuristic, returning the final answer and the store. -/
def runLoop (llm : List Message → String × List ToolCall)
    (tools : List Tool) (maxTokens : Nat) :
    Nat → List Message → Nat → Option (String × List Message)
  | 0, _, _ => none
  | fuel + 1, msgs, turnsWithoutToolCalls =>
    let view := MemoryManager.getMessagesForPrompt maxTokens msgs
    let fullContent := (llm view).1
    let allToolCalls := (llm view).2
    let msgs1 := MemoryManager.addAssistantMessage msgs fullContent allToolCalls
    if allToolCalls.isEmpty then
      if turnsWithoutToolCalls + 1 ≥ MAX_TURNS_WITHOUT_TOOLS then
        some (fullContent, msgs1)
      else if isLikelyFinalAnswer fullContent then
        some (fullContent, msgs1)
      else
        runLoop llm tools maxTokens fuel msgs1 (turnsWithoutToolCalls + 1)
    else
      runLoop llm tools maxTokens fuel
        (MemoryManager.addToolResults msgs1
          (ToolManager.executeTools tools allToolCalls true 3)) 0

/-- The mutable state of an `AgentLoop` instance relevant to `run`: the
memory manager's local store and the `isRunning` re-entrancy flag. -/
structure AgentState where
  localMessages : List Message := []
  isRunning : Bool := false
deriving DecidableEq, Repr

/-- The initialization step of `AgentLoop.run`: the additional messages
are appended as user messages first; then, when
`getCurrentTokenCount()` is 0, the configured initial prompt is
appended as a user message. -/
def initMessages (initialPrompt : String) (additionalMessages : List String)
    (ms : List Message) : List Message :=
  let ms0 := additionalMessages.foldl MemoryManager.addUserMessage ms
  if MemoryManager.getCurrentTokenCount ms0 == 0 then
    MemoryManager.addUserMessage ms0 initialPrompt
  else ms0

/-- `AgentLoop.run` (memory-backed variant): a second call while
`isRunning` throws `AgentLoopError 'Agent loop is already running'`
before touching any state; otherwise the flag is set, the store is
initialized, the loop runs, and the response carries the final answer
and the budgeted history, with `isRunning` cleared by the `finally`.
The `fuel exhausted` outcome is an artefact of the fuel model only. -/
def run (llm : List Message → String × List ToolCall) (tools : List Tool)
    (maxTokens : Nat) (initialPrompt : String) (fuel : Nat)
    (st : AgentState) (additionalMessages : List String) :
    Except String (String × List Message) × AgentState :=
  if st.isRunning then
    (Except.error "Agent loop is already running", st)
  else
    match runLoop llm tools maxTokens fuel
        (initMessages initialPrompt additionalMessages st.localMessages) 0 with
    | some (answer, msgs) =>
      (Except.ok (answer, MemoryManager.getMessagesForPrompt maxTokens msgs),
       { localMessages := msgs, isRunning := false })
    | none =>
      (Except.error "fuel exhausted",
       { localMessages := initMessages initialPrompt additionalMessages st.localMessages,
         isRunning := false })

end AgentLoop

/-! Concrete data used by counterexamples and witnesses. -/

/-- A small system message (5 estimated tokens). -/
def sysMsg : Message := { role := Role.system, content := "s" }

/-- A large user message (104 estimated tokens). -/
def longMsg : Message := { role := Role.user, content := String.mk (List.replicate 400 'a') }

/-- Another large user message (104 estimated tokens). -/
def longMsgB : Message := { role := Role.user, content := String.mk (List.replicate 400 'b') }

/-- A small user message (5 estimated tokens). -/
def u1Msg : Message := { role := Role.user, content := "b" }

/-- Another small user message (5 estimated tokens). -/
def u2Msg : Message := { role := Role.user, content := "c" }

/-- A tool whose execution fails on every attempt. -/
def failTool : Tool := { name := "boom", execute := fun _ _ => Except.error "always" }

/-- A call to the failing tool. -/
def boomCall : ToolCall := { name := "boom", params := "x" }

/-- A call to a name no tool registers. -/
def nopeCall : ToolCall := { name := "nope", params := "x" }

/-- A tool computing the length of its parameter text. -/
def lenTool : Tool :=
  { name := "len", execute := fun p _ => Except.ok (toString p.length) }

/-- A call to the length tool. -/
def lenCall : ToolCall := { name := "len", params := "abc" }

/-- The effect on the store of one loop turn in which the model returns
no tool calls: the assistant message for the model's text on the
current budgeted view is appended. Composed from the source operations;
used to phrase the termination theorem. -/
def assistantTurn (llm : List Message → String × List ToolCall)
    (maxTokens : Nat) (msgs : List Message) : List Message :=
  MemoryManager.addAssistantMessage msgs
    (llm (MemoryManager.getMessagesForPrompt maxTokens msgs)).1 []

/-! Helper lemmas shared by several claims. -/

/-- A system-role member of the store is a member of the sliding-window
view, whatever the budget: both the under-budget branch (which keeps
everything) and the eviction branch (which keeps the whole system
filter) retain it. -/
theorem mem_apply_of_system (maxTokens : Nat) (msgs : List Message)
    (m : Message) (hm : m ∈ msgs) (hrole : m.role = Role.system) :
    m ∈ SlidingWindowStrategy.apply maxTokens msgs := by
  have hne : msgs.isEmpty = false := by
    cases msgs with
    | nil => cases hm
    | cons a l => rfl
  unfold SlidingWindowStrategy.apply
  rw [hne]
  by_cases htot : TokenCounter.estimateMessagesTokens msgs ≤ maxTokens
  · simpa [htot] using hm
  · simp only [htot, if_false, Bool.false_eq_true]
    refine List.mem_append.mpr (Or.inr ?_)
    exact List.mem_filter.mpr ⟨hm, by simp [hrole]⟩

/-- The sequential branch of `executeTools` computes the same list as
mapping `executeTool` over the calls. -/
theorem executeToolsSeq_eq_map (tools : List Tool) (retries : Nat) :
    ∀ calls, ToolManager.executeToolsSeq tools retries calls =
      calls.map (fun call => (ToolManager.executeTool tools call retries).1) := by
  intro calls
  induction calls with
  | nil => rfl
  | cons c cs ih => simp [ToolManager.executeToolsSeq, ih]

/-- Under a tool that fails on every attempt, `p-retry` makes exactly
`remaining + 1` attempts and ends with the failure of the last one. -/
theorem pRetryRun_all_fail (f : Nat → Except String String)
    (hfail : ∀ a, ∃ e, f a = Except.error e) :
    ∀ remaining attempt, ∃ e, f (attempt + remaining) = Except.error e ∧
      pRetryRun f attempt remaining = (Except.error e, remaining + 1) := by
  intro remaining
  induction remaining with
  | zero =>
    intro attempt
    obtain ⟨e, he⟩ := hfail attempt
    exact ⟨e, by simpa using he, by simp [pRetryRun, he]⟩
  | succ r ih =>
    intro attempt
    obtain ⟨e0, he0⟩ := hfail attempt
    obtain ⟨e, he, hrun⟩ := ih (attempt + 1)
    refine ⟨e, ?_, ?_⟩
    · rw [show attempt + (r + 1) = attempt + 1 + r by omega]
      exact he
    · simp [pRetryRun, he0, hrun]

/-! Claim theorems. -/

/-- C1: for every list of tool calls and every retries value, parallel
and sequential `executeTools` return the same result list; its length
matches the input, and its i-th entry is the `ToolResult` of the i-th
call — one call's outcome is a function of that call alone, so a
sibling's failure cannot alter it. -/
theorem executeTools_modes_agree (tools : List Tool) (calls : List ToolCall)
    (parallel : Bool) (retries : Nat) :
    ToolManager.executeTools tools calls true retries =
      ToolManager.executeTools tools calls false retries ∧
    (ToolManager.executeTools tools calls parallel retries).length = calls.length ∧
    ∀ i, (ToolManager.executeTools tools calls parallel retries).get? i =
      (calls.get? i).map (fun call => (ToolManager.executeTool tools call retries).1) := by
  have hmap : ∀ b, ToolManager.executeTools tools calls b retries =
      calls.map (fun call => (ToolManager.executeTool tools call retries).1) := by
    intro b
    unfold ToolManager.executeTools
    by_cases hemp : calls.isEmpty
    · rw [List.isEmpty_iff] at hemp
      subst hemp
      simp
    · have hemp' : calls.isEmpty = false := by
        cases h : calls.isEmpty
        · rfl
        · exact absurd h hemp
      rw [hemp']
      cases b with
      | true => simp
      | false => simp [executeToolsSeq_eq_map]
  refine ⟨by rw [hmap, hmap], by rw [hmap]; simp, ?_⟩
  intro i
  rw [hmap, List.get?_map]

/-- C2: `executeTool` is a total function returning a `ToolResult` (no
exception escapes), and an unregistered tool name yields the immediate
`Tool not found` error result, with zero invocations of any tool and no
retry. -/
theorem executeTool_unknown_name (tools : List Tool) (call : ToolCall)
    (retries : Nat) (h : ToolManager.findTool tools call.name = none) :
    ToolManager.executeTool tools call retries =
      ({ toolCall := call, result := none,
         error := some ("Tool not found: " ++ call.name) }, 0) := by
  unfold ToolManager.executeTool
  rw [h]

/-- Witness for C2 at a concrete unregistered call. -/
theorem executeTool_unknown_name_witness :
    ToolManager.findTool [lenTool] nopeCall.name = none ∧
    ToolManager.executeTool [lenTool] nopeCall 5 =
      ({ toolCall := nopeCall, result := none,
         error := some ("Tool not found: " ++ nopeCall.name) }, 0) :=
  ⟨rfl, executeTool_unknown_name [lenTool] nopeCall 5 rfl⟩

/-- C7: a registered tool that fails on every attempt is invoked exactly
`1 + retries` times, and the returned error wraps the last failure. -/
theorem executeTool_retry_bound (tools : List Tool) (call : ToolCall)
    (retries : Nat) (tool : Tool)
    (hfind : ToolManager.findTool tools call.name = some tool)
    (hfail : ∀ attempt, ∃ e, tool.execute call.params attempt = Except.error e) :
    (ToolManager.executeTool tools call retries).2 = retries + 1 ∧
    ∃ e, tool.execute call.params retries = Except.error e ∧
      (ToolManager.executeTool tools call retries).1 =
        { toolCall := call, result := none,
          error := some ("Failed to execute tool " ++ call.name ++ ": " ++ e) } := by
  obtain ⟨e, he, hrun⟩ :=
    pRetryRun_all_fail (fun a => tool.execute call.params a) hfail retries 0
  rw [Nat.zero_add] at he
  have hexec : ToolManager.executeTool tools call retries =
      ({ toolCall := call, result := none,
         error := some ("Failed to execute tool " ++ call.name ++ ": " ++ e) },
       retries + 1) := by
    simp only [ToolManager.executeTool, hfind, hrun]
  rw [hexec]
  exact ⟨rfl, e, he, rfl⟩

/-- Witness for C7: the always-failing tool with 2 retries runs 3 times
and reports the wrapped final failure. -/
theorem executeTool_retry_bound_witness :
    (ToolManager.executeTool [failTool] boomCall 2).2 = 3 ∧
    (ToolManager.executeTool [failTool] boomCall 2).1.error =
      some "Failed to execute tool boom: always" := by
  have h := executeTool_retry_bound [failTool] boomCall 2 failTool rfl
    (fun _ => ⟨"always", rfl⟩)
  obtain ⟨h1, e, he, h2⟩ := h
  have he2 : (Except.error "always" : Except String String) = Except.error e := he
  have he3 : ("always" : String) = e := by injection he2
  subst he3
  exact ⟨h1, by rw [h2]; rfl⟩

/-- C9: calling `run` while `isRunning` is set returns the
`already running` error synchronously, with the instance state — in
particular the message store — left exactly as it was. -/
theorem run_reentrancy_guard (llm : List Message → String × List ToolCall)
    (tools : List Tool) (maxTokens : Nat) (initialPrompt : String)
    (fuel : Nat) (st : AgentLoop.AgentState) (adds : List String)
    (h : st.isRunning = true) :
    AgentLoop.run llm tools maxTokens initialPrompt fuel st adds =
      (Except.error "Agent loop is already running", st) := by
  unfold AgentLoop.run
  rw [h]
  simp

/-- Witness for C9 at a concrete running instance. -/
theorem run_reentrancy_guard_witness :
    AgentLoop.run (fun _ => ("", [])) [] 4000 "go" 7
        { localMessages := [u1Msg], isRunning := true } [] =
      (Except.error "Agent loop is already running",
       { localMessages := [u1Msg], isRunning := true }) :=
  run_reentrancy_guard (fun _ => ("", [])) [] 4000 "go" 7
    { localMessages := [u1Msg], isRunning := true } [] rfl

/-- C6 evidence: on an empty store with no additional messages the
initialization step of `run` leaves the store empty — the configured
initial prompt is never appended — because `getCurrentTokenCount`
returns the base estimate 3 (and in fact at least 3 on every store), so
the `=== 0` seed condition never holds. -/
theorem initMessages_never_seeds (p : String) :
    AgentLoop.initMessages p [] [] = [] ∧
    MemoryManager.getCurrentTokenCount [] = 3 ∧
    ∀ ms : List Message, 3 ≤ MemoryManager.getCurrentTokenCount ms := by
  refine ⟨rfl, rfl, ?_⟩
  intro ms
  simp [MemoryManager.getCurrentTokenCount, TokenCounter.estimateMessagesTokens]

/-- C5: when the stored sequence exceeds the budget, every system-role
message of the input is in the sliding-window result — even when the
system messages alone already exceed the budget. -/
theorem apply_retains_system_messages (maxTokens : Nat) (msgs : List Message)
    (hover : maxTokens < TokenCounter.estimateMessagesTokens msgs) :
    ∀ m ∈ msgs, m.role = Role.system →
      m ∈ SlidingWindowStrategy.apply maxTokens msgs :=
  fun m hm hrole => mem_apply_of_system maxTokens msgs m hm hrole

/-- Witness for C5: a budget of 5 is below the store's 8 estimated
tokens — indeed below the system messages' own estimate — yet the
system message is retained. -/
theorem apply_retains_system_messages_witness :
    5 < TokenCounter.estimateMessagesTokens [sysMsg] ∧
    sysMsg ∈ SlidingWindowStrategy.apply 5 [sysMsg] :=
  ⟨by decide,
   apply_retains_system_messages 5 [sysMsg] (by decide) sysMsg
     (List.mem_singleton.mpr rfl) rfl⟩

/-- C10: the message `addToolResults` appends has role `system` and
content `Tool execution results`; consequently, under the sliding
window — which retains every system-role message — it is present in the
prompt view after any further history `later`, at any budget. -/
theorem addToolResults_pinned (ms : List Message) (trs : List ToolResult)
    (maxTokens : Nat) (later : List Message) :
    MemoryManager.addToolResults ms trs =
      ms ++ [MemoryManager.toolResultsMessage trs] ∧
    (MemoryManager.toolResultsMessage trs).role = Role.system ∧
    (MemoryManager.toolResultsMessage trs).content = "Tool execution results" ∧
    MemoryManager.toolResultsMessage trs ∈
      SlidingWindowStrategy.apply maxTokens
        (MemoryManager.addToolResults ms trs ++ later) := by
  refine ⟨rfl, rfl, rfl, ?_⟩
  apply mem_apply_of_system
  · simp [MemoryManager.addToolResults]
  · rfl

/-- The head of a list known to be a given cons cell. -/
theorem head_eq_of_eq_cons {α : Type} {l : List α} {a : α} {t : List α}
    (h : l = a :: t) (hl : l ≠ []) : l.head hl = a := by
  subst h
  rfl

/-- The backward walk keeps an initial segment of its input: it stops at
the first message that does not fit. -/
theorem keepRecent_isInitial (maxTokens : Nat) :
    ∀ (l : List Message) (c : Nat),
      SlidingWindowStrategy.keepRecent maxTokens c l <+: l := by
  intro l
  induction l with
  | nil =>
    intro c
    simp [SlidingWindowStrategy.keepRecent]
  | cons m rest ih =>
    intro c
    simp only [SlidingWindowStrategy.keepRecent]
    split
    · exact List.nil_prefix
    · obtain ⟨t, ht⟩ := ih (c + TokenCounter.estimateMessageTokens m)
      exact ⟨t, by rw [List.cons_append, ht]⟩

/-- Reversing the backward walk of the reversed non-system messages
yields a suffix — in particular an order-preserving subsequence — of the
non-system messages as stored. -/
theorem keepRecent_reverse_isFinal (maxTokens c : Nat) (l : List Message) :
    (SlidingWindowStrategy.keepRecent maxTokens c l.reverse).reverse <:+ l := by
  have h := keepRecent_isInitial maxTokens l.reverse c
  have h2 : (SlidingWindowStrategy.keepRecent maxTokens c l.reverse).reverse.reverse
      <+: l.reverse := by
    rw [List.reverse_reverse]
    exact h
  exact List.reverse_prefix.mp h2

set_option maxRecDepth 4000 in
/-- C4 counterexample: with budget 120 the stored sequence
`[sysMsg, longMsg, u1Msg, u2Msg]` (122 estimated tokens) exceeds the
budget, and the eviction returns `[u1Msg, u2Msg, sysMsg]`: the system
message, stored before `u1Msg`, comes out after it, so the relative
stored order of a kept system / non-system pair is not preserved. -/
theorem apply_order_flip_cex :
    120 < TokenCounter.estimateMessagesTokens [sysMsg, longMsg, u1Msg, u2Msg] ∧
    SlidingWindowStrategy.apply 120 [sysMsg, longMsg, u1Msg, u2Msg] =
      [u1Msg, u2Msg, sysMsg] ∧
    sysMsg.role = Role.system ∧ u1Msg.role ≠ Role.system := by
  decide

/-- C4 amended: when the stored sequence exceeds the budget, the view
decomposes into an order-preserving subsequence of the stored
non-system messages followed by exactly the stored system-message
subsequence — so relative stored order is preserved within each block,
with every kept non-system message placed before the system block. -/
theorem apply_blockwise_order (maxTokens : Nat) (msgs : List Message)
    (hover : maxTokens < TokenCounter.estimateMessagesTokens msgs) :
    ∃ kept, kept.Sublist (msgs.filter (fun m => m.role != Role.system)) ∧
      SlidingWindowStrategy.apply maxTokens msgs =
        kept ++ msgs.filter (fun m => m.role == Role.system) := by
  have htot : ¬ TokenCounter.estimateMessagesTokens msgs ≤ maxTokens :=
    Nat.not_le.mpr hover
  unfold SlidingWindowStrategy.apply
  by_cases hemp : msgs.isEmpty
  · rw [List.isEmpty_iff] at hemp
    subst hemp
    exact ⟨[], List.nil_sublist _, by simp⟩
  · have hemp' : msgs.isEmpty = false := by
      cases h : msgs.isEmpty
      · rfl
      · exact absurd h hemp
    rw [hemp']
    simp only [Bool.false_eq_true, if_false]
    refine ⟨(SlidingWindowStrategy.keepRecent maxTokens
        (TokenCounter.estimateMessagesTokens
          (msgs.filter (fun m => m.role == Role.system)))
        (msgs.filter (fun m => m.role != Role.system)).reverse).reverse,
      ?_, by simp [htot]⟩
    exact (keepRecent_reverse_isFinal maxTokens _ _).sublist

set_option maxRecDepth 4000 in
/-- Witness for the amended C4 at a concrete over-budget store: budget
120 against 122 estimated tokens; the view splits into a kept
non-system subsequence followed by the stored system messages. -/
theorem apply_blockwise_order_witness :
    120 < TokenCounter.estimateMessagesTokens [sysMsg, longMsg, u1Msg, u2Msg] ∧
    ∃ kept, kept.Sublist
        ([sysMsg, longMsg, u1Msg, u2Msg].filter (fun m => m.role != Role.system)) ∧
      SlidingWindowStrategy.apply 120 [sysMsg, longMsg, u1Msg, u2Msg] =
        kept ++ [sysMsg, longMsg, u1Msg, u2Msg].filter (fun m => m.role == Role.system) :=
  ⟨by decide,
   apply_blockwise_order 120 [sysMsg, longMsg, u1Msg, u2Msg] (by decide)⟩

set_option maxRecDepth 4000 in
/-- C8 counterexample: with budget 200 the store `[longMsg, longMsgB]`
has 211 estimated tokens, the newest non-system message `longMsgB`
fits the budget on its own (104 ≤ 200), yet the view is empty — the
safety margin makes the walk stop before keeping it. -/
theorem apply_drops_fitting_newest_cex :
    200 < TokenCounter.estimateMessagesTokens [longMsg, longMsgB] ∧
    TokenCounter.estimateMessageTokens longMsgB ≤ 200 ∧
    longMsgB.role ≠ Role.system ∧
    SlidingWindowStrategy.apply 200 [longMsg, longMsgB] = [] := by
  decide

/-- C8 amended: when the store exceeds the budget, the newest non-system
message is present in the view whenever the estimated tokens of the
system messages (with the sequence base cost) plus its own estimate
stay within `budget - 100`, the safety margin of the walk. -/
theorem apply_keeps_newest_within_margin (maxTokens : Nat)
    (msgs : List Message)
    (hne : msgs.filter (fun m => m.role != Role.system) ≠ [])
    (hover : maxTokens < TokenCounter.estimateMessagesTokens msgs)
    (hfits : ((TokenCounter.estimateMessagesTokens
          (msgs.filter (fun m => m.role == Role.system)) +
        TokenCounter.estimateMessageTokens
          ((msgs.filter (fun m => m.role != Role.system)).getLast hne) : Nat) : Int)
        ≤ (maxTokens : Int) - 100) :
    (msgs.filter (fun m => m.role != Role.system)).getLast hne ∈
      SlidingWindowStrategy.apply maxTokens msgs := by
  have hmsgs : msgs ≠ [] := by
    intro h
    subst h
    exact hne rfl
  have hemp' : msgs.isEmpty = false := by
    cases msgs with
    | nil => exact absurd rfl hmsgs
    | cons a l => rfl
  have htot : ¬ TokenCounter.estimateMessagesTokens msgs ≤ maxTokens :=
    Nat.not_le.mpr hover
  unfold SlidingWindowStrategy.apply
  rw [hemp']
  simp only [Bool.false_eq_true, if_false, htot]
  refine List.mem_append.mpr (Or.inl ?_)
  rw [List.mem_reverse]
  rcases hrev : (msgs.filter (fun m => m.role != Role.system)).reverse with _ | ⟨a, t⟩
  · rw [List.reverse_eq_nil_iff] at hrev
    exact absurd hrev hne
  · have hga : (msgs.filter (fun m => m.role != Role.system)).getLast hne = a := by
      rw [List.getLast_eq_head_reverse]
      exact head_eq_of_eq_cons hrev _
    rw [hga] at hfits ⊢
    rw [hrev]
    simp only [SlidingWindowStrategy.keepRecent]
    rw [if_neg (by exact not_lt.mpr hfits)]
    exact List.mem_cons_self a _

set_option maxRecDepth 4000 in
/-- Witness for the amended C8 at a concrete store: budget 120, total
142 estimated tokens, system block 8, newest non-system message
`u2Msg` of 5 tokens; 8 + 5 ≤ 20, and `u2Msg` is in the view. -/
theorem apply_keeps_newest_within_margin_witness :
    [longMsg, sysMsg, u1Msg, u2Msg].filter (fun m => m.role != Role.system) ≠ [] ∧
    120 < TokenCounter.estimateMessagesTokens [longMsg, sysMsg, u1Msg, u2Msg] ∧
    u2Msg ∈ SlidingWindowStrategy.apply 120 [longMsg, sysMsg, u1Msg, u2Msg] :=
  ⟨by decide, by decide,
   apply_keeps_newest_within_margin 120 [longMsg, sysMsg, u1Msg, u2Msg]
     (by decide) (by decide) (by decide)⟩

/-- One loop iteration under no tool calls, below the turn cap and below
the final-answer heuristic: the loop appends the assistant message,
bumps the counter and continues. -/
theorem runLoop_step_continue (llm : List Message → String × List ToolCall)
    (tools : List Tool) (maxTokens fuel : Nat) (msgs : List Message)
    (turns : Nat)
    (hc : (llm (MemoryManager.getMessagesForPrompt maxTokens msgs)).2 = [])
    (hf : AgentLoop.isLikelyFinalAnswer
        (llm (MemoryManager.getMessagesForPrompt maxTokens msgs)).1 = false)
    (hturn : turns + 1 < AgentLoop.MAX_TURNS_WITHOUT_TOOLS) :
    AgentLoop.runLoop llm tools maxTokens (fuel + 1) msgs turns =
      AgentLoop.runLoop llm tools maxTokens fuel
        (MemoryManager.addAssistantMessage msgs
          (llm (MemoryManager.getMessagesForPrompt maxTokens msgs)).1 [])
        (turns + 1) := by
  simp only [AgentLoop.runLoop, hc, List.isEmpty_nil, if_true]
  rw [if_neg (Nat.not_le.mpr hturn), if_neg (by simp [hf])]

/-- One loop iteration under no tool calls at the turn cap: the loop
returns the current text as the final answer. -/
theorem runLoop_step_stop (llm : List Message → String × List ToolCall)
    (tools : List Tool) (maxTokens fuel : Nat) (msgs : List Message)
    (turns : Nat)
    (hc : (llm (MemoryManager.getMessagesForPrompt maxTokens msgs)).2 = [])
    (hturn : AgentLoop.MAX_TURNS_WITHOUT_TOOLS ≤ turns + 1) :
    AgentLoop.runLoop llm tools maxTokens (fuel + 1) msgs turns =
      some ((llm (MemoryManager.getMessagesForPrompt maxTokens msgs)).1,
        MemoryManager.addAssistantMessage msgs
          (llm (MemoryManager.getMessagesForPrompt maxTokens msgs)).1 []) := by
  simp only [AgentLoop.runLoop, hc, List.isEmpty_nil, if_true]
  rw [if_pos hturn]

/-- Under a model that never produces tool calls and never matches the
final-answer heuristic, the loop runs exactly three turns from a fresh
counter, whatever extra fuel it is given, and returns the third turn's
text together with the store extended by the three assistant
messages. -/
theorem runLoop_three_turns (llm : List Message → String × List ToolCall)
    (tools : List Tool) (maxTokens : Nat)
    (H : ∀ ms, (llm ms).2 = [] ∧
      AgentLoop.isLikelyFinalAnswer (llm ms).1 = false) :
    ∀ fuel msgs, AgentLoop.runLoop llm tools maxTokens (fuel + 3) msgs 0 =
      some ((llm (MemoryManager.getMessagesForPrompt maxTokens
          (assistantTurn llm maxTokens (assistantTurn llm maxTokens msgs)))).1,
        assistantTurn llm maxTokens (assistantTurn llm maxTokens
          (assistantTurn llm maxTokens msgs))) := by
  intro fuel msgs
  have h1 := H (MemoryManager.getMessagesForPrompt maxTokens msgs)
  have h2 := H (MemoryManager.getMessagesForPrompt maxTokens
    (assistantTurn llm maxTokens msgs))
  have h3 := H (MemoryManager.getMessagesForPrompt maxTokens
    (assistantTurn llm maxTokens (assistantTurn llm maxTokens msgs)))
  have s1 : AgentLoop.runLoop llm tools maxTokens (fuel + 3) msgs 0 =
      AgentLoop.runLoop llm tools maxTokens (fuel + 2)
        (assistantTurn llm maxTokens msgs) 1 :=
    runLoop_step_continue llm tools maxTokens (fuel + 2) msgs 0
      h1.1 h1.2 (by decide)
  have s2 : AgentLoop.runLoop llm tools maxTokens (fuel + 2)
        (assistantTurn llm maxTokens msgs) 1 =
      AgentLoop.runLoop llm tools maxTokens (fuel + 1)
        (assistantTurn llm maxTokens (assistantTurn llm maxTokens msgs)) 2 :=
    runLoop_step_continue llm tools maxTokens (fuel + 1)
      (assistantTurn llm maxTokens msgs) 1 h2.1 h2.2 (by decide)
  have s3 : AgentLoop.runLoop llm tools maxTokens (fuel + 1)
        (assistantTurn llm maxTokens (assistantTurn llm maxTokens msgs)) 2 =
      some ((llm (MemoryManager.getMessagesForPrompt maxTokens
          (assistantTurn llm maxTokens (assistantTurn llm maxTokens msgs)))).1,
        assistantTurn llm maxTokens (assistantTurn llm maxTokens
          (assistantTurn llm maxTokens msgs))) :=
    runLoop_step_stop llm tools maxTokens fuel
      (assistantTurn llm maxTokens (assistantTurn llm maxTokens msgs)) 2
      h3.1 (by decide)
  rw [s1, s2, s3]

/-- C3: under a model that on every turn produces zero tool calls and
text never matching the final-answer heuristic, `run` terminates after
exactly `MAX_TURNS_WITHOUT_TOOLS` (3) turns — with any fuel of at least
3 iterations, so the unbounded source loop does not run forever — and
returns the third (last) turn's full text as the final answer. -/
theorem run_terminates_without_tools
    (llm : List Message → String × List ToolCall) (tools : List Tool)
    (maxTokens : Nat) (initialPrompt : String) (fuel : Nat)
    (st : AgentLoop.AgentState) (adds : List String)
    (hrun : st.isRunning = false)
    (H : ∀ ms, (llm ms).2 = [] ∧
      AgentLoop.isLikelyFinalAnswer (llm ms).1 = false) :
    AgentLoop.run llm tools maxTokens initialPrompt (fuel + 3) st adds =
      (Except.ok
        ((llm (MemoryManager.getMessagesForPrompt maxTokens
            (assistantTurn llm maxTokens (assistantTurn llm maxTokens
              (AgentLoop.initMessages initialPrompt adds st.localMessages))))).1,
         MemoryManager.getMessagesForPrompt maxTokens
           (assistantTurn llm maxTokens (assistantTurn llm maxTokens
             (assistantTurn llm maxTokens
               (AgentLoop.initMessages initialPrompt adds st.localMessages))))),
       { localMessages :=
           assistantTurn llm maxTokens (assistantTurn llm maxTokens
             (assistantTurn llm maxTokens
               (AgentLoop.initMessages initialPrompt adds st.localMessages))),
         isRunning := false }) := by
  unfold AgentLoop.run
  rw [hrun]
  simp only [Bool.false_eq_true, if_false]
  rw [runLoop_three_turns llm tools maxTokens H fuel
    (AgentLoop.initMessages initialPrompt adds st.localMessages)]

/-- Witness for C3: a model that always answers with empty text and no
tool calls makes `run` stop after three turns with that text. -/
theorem run_terminates_without_tools_witness :
    AgentLoop.run (fun _ => ("", [])) [] 4000 "go" 3
        { localMessages := [], isRunning := false } [] =
      (Except.ok ("",
        [{ role := Role.assistant, content := "", toolCalls := [] },
         { role := Role.assistant, content := "", toolCalls := [] },
         { role := Role.assistant, content := "", toolCalls := [] }]),
       { localMessages :=
           [{ role := Role.assistant, content := "", toolCalls := [] },
            { role := Role.assistant, content := "", toolCalls := [] },
            { role := Role.assistant, content := "", toolCalls := [] }],
         isRunning := false }) :=
  run_terminates_without_tools (fun _ => ("", [])) [] 4000 "go" 0
    { localMessages := [], isRunning := false } [] rfl
    (fun _ => ⟨rfl, rfl⟩)
